import Mathlib

set_option maxRecDepth 100000

/-!
Verification development for the Socket.IO presence/messaging hub in
`src/sockets/index.ts`.  The event handlers are shallowly embedded as pure
Lean functions over an explicit `ServerState`.  JS `Map` and `Set` are
modelled as insertion-ordered association lists / lists without duplicates,
wall-clock timestamps (`Date.now()`, ISO strings from
`getCurrentTimestamp()`) as `Nat` milliseconds, and JS strings as Lean
`String` with list-based `trim`/`length` helpers (JS `.length` counts
UTF-16 units, our `jsLength` counts characters; all inputs of interest here
are ASCII, where the two agree).  `setTimeout`/`setInterval` timers are
made explicit: a pending `setTimeout` is a map entry holding its deadline,
and a `setInterval` keeps the delay value it was created with, since the
delay argument is evaluated exactly once at creation time.
-/

/-- JS `String.prototype.trim`: strip whitespace from both ends. -/
def jsTrim (s : String) : String :=
  String.mk (((s.data.dropWhile Char.isWhitespace).reverse.dropWhile Char.isWhitespace).reverse)

/-- JS `String.prototype.length` (character count of the underlying data). -/
def jsLength (s : String) : Nat := s.data.length

/-- A latitude/longitude pair as carried in `location` payloads. -/
structure Loc where
  latitude : Int
  longitude : Int
deriving Repr, DecidableEq

/-- One entry of `User.trail` (`{latitude, longitude, timestamp}`). -/
structure TrailPoint where
  latitude : Int
  longitude : Int
  timestamp : Nat
deriving Repr, DecidableEq

/-- The `ConnectionHealth` record of `src/sockets/index.ts`. -/
structure ConnectionHealth where
  connectedAt : Nat
  lastPing : Nat
  pingCount : Nat
  reconnectCount : Nat
  isHealthy : Bool
  latency : Option Nat
deriving Repr, DecidableEq

/-- The `User` record of `src/sockets/index.ts`. -/
structure User where
  id : String
  name : String
  role : String
  sessionId : String
  joinedAt : Nat
  lastSeen : Nat
  status : String
  location : Option Loc
  accuracy : Option Int
  speed : Option Int
  heading : Option Int
  trail : List TrailPoint
  isTyping : Bool
  connectionHealth : Option ConnectionHealth
deriving Repr, DecidableEq

/-- The message object built in the `send-message` handler.  The empty
`reactions` object is modelled as an empty list of (emoji, connection id)
pairs. -/
structure ChatMessage where
  id : String
  userId : String
  userName : String
  userRole : String
  message : String
  timestamp : Nat
  location : Option Loc
  messageType : String
  edited : Bool
  reactions : List (String × String)
deriving Repr, DecidableEq

/-- `Map.prototype.get` on an insertion-ordered association list. -/
def mapGet {α : Type} (m : List (String × α)) (k : String) : Option α :=
  match m with
  | [] => none
  | (k2, v) :: rest => if k2 = k then some v else mapGet rest k

/-- `Map.prototype.set`: replace in place, or append a fresh key. -/
def mapSet {α : Type} (m : List (String × α)) (k : String) (v : α) : List (String × α) :=
  match m with
  | [] => [(k, v)]
  | (k2, v2) :: rest => if k2 = k then (k, v) :: rest else (k2, v2) :: mapSet rest k v

/-- `Map.prototype.delete`. -/
def mapDelete {α : Type} (m : List (String × α)) (k : String) : List (String × α) :=
  m.filter (fun p => p.1 != k)

/-- `Set.prototype.add` on an insertion-ordered duplicate-free list. -/
def setAdd (l : List String) (x : String) : List String :=
  if l.contains x then l else l ++ [x]

/-- The five module-level maps of `initSocket` that the handlers share. -/
structure ServerState where
  connectedUsers : List (String × User)
  trackingSessions : List (String × List String)
  typingUsers : List (String × Nat)
  connectionHealth : List (String × ConnectionHealth)
  messageBuffer : List (String × List ChatMessage)
deriving Repr, DecidableEq

/-- The maps right after `initSocket` sets them up (all empty). -/
def emptyState : ServerState :=
  { connectedUsers := [], trackingSessions := [], typingUsers := [],
    connectionHealth := [], messageBuffer := [] }

/-- JS `Array.prototype.slice(-n)`: the last `n` elements (all of them if
the array is shorter). -/
def sliceLast {α : Type} (n : Nat) (l : List α) : List α :=
  l.drop (l.length - n)

/-- The trail update of the `location-update` handler: `trail.push(point)`
followed by `trail = trail.slice(-30)` when the length exceeds 30. -/
def pushTrail (trail : List TrailPoint) (pt : TrailPoint) : List TrailPoint :=
  let t := trail ++ [pt]
  if 30 < t.length then sliceLast 30 t else t

/-- JS `x || null` on an optional number: `0` is falsy and collapses to
`null`. -/
def orNullInt (x : Option Int) : Option Int :=
  match x with
  | some v => if v = 0 then none else some v
  | none => none

/-- JS `sessionId || "tracking-users"` (the empty string is falsy). -/
def sidOf (sessionId : Option String) : String :=
  match sessionId with
  | some sid => if sid = "" then "tracking-users" else sid
  | none => "tracking-users"

/-- JS `messageData.messageType || "text"`. -/
def mtOf (messageType : Option String) : String :=
  match messageType with
  | some t => if t = "" then "text" else t
  | none => "text"

/-- Payload of the `join-tracking` event. -/
structure JoinData where
  name : Option String
  role : String
  sessionId : Option String
  location : Option Loc
  speed : Option Int
  accuracy : Option Int
  heading : Option Int
deriving Repr, DecidableEq

/-- What the `join-tracking` handler emits back: the three `error`
rejections, or the created user together with the roster sent to the
joining connection and the buffered messages delivered to it. -/
inductive JoinOutcome where
  | invalidName
  | invalidRole
  | duplicateJoin
  | joined (user : User) (roomUsers : List User) (buffered : List ChatMessage)
deriving Repr, DecidableEq

/-- Result of one `join-tracking` dispatch. -/
structure JoinResult where
  outcome : JoinOutcome
  state : ServerState
deriving Repr, DecidableEq

/-- The `join-tracking` handler (`src/sockets/index.ts`, lines 292-373). -/
def joinTracking (cid : String) (data : JoinData) (now : Nat) (s : ServerState) : JoinResult :=
  let nameOk := match data.name with
    | none => false
    | some n => n != "" && jsLength (jsTrim n) != 0
  if nameOk = false then { outcome := .invalidName, state := s }
  else if (["admin", "supervisor", "worker", "new"].contains data.role) = false then
    { outcome := .invalidRole, state := s }
  else
    let trimmedName := jsTrim (data.name.getD "")
    let sid := sidOf data.sessionId
    let isAlreadyJoined := (s.connectedUsers.map (fun p => p.2)).any
      (fun user => user.name == trimmedName && user.sessionId == sid)
    if isAlreadyJoined then { outcome := .duplicateJoin, state := s }
    else
      let userData : User := {
        id := cid
        name := trimmedName
        role := if data.role = "" then "worker" else data.role
        sessionId := sid
        joinedAt := now
        lastSeen := now
        status := "online"
        location := data.location
        accuracy := orNullInt data.accuracy
        speed := orNullInt data.speed
        heading := orNullInt data.heading
        trail := []
        isTyping := false
        connectionHealth := mapGet s.connectionHealth cid }
      let users1 := mapSet s.connectedUsers cid userData
      let sessions1 := mapSet s.trackingSessions sid
        (setAdd ((mapGet s.trackingSessions sid).getD []) cid)
      let roomUsers := (users1.map (fun p => p.2)).filter (fun user => user.sessionId == sid)
      let buffered := (mapGet s.messageBuffer cid).getD []
      let buffers1 := if 0 < buffered.length then mapDelete s.messageBuffer cid else s.messageBuffer
      { outcome := .joined userData roomUsers buffered,
        state := { s with connectedUsers := users1, trackingSessions := sessions1,
                          messageBuffer := buffers1 } }

/-- Payload of the `location-update` event. -/
structure LocData where
  location : Option Loc
  accuracy : Option Int
  speed : Option Int
  heading : Option Int
deriving Repr, DecidableEq

/-- What the `location-update` handler does: silent throttle drop, the two
`error` rejections, or a successful update carrying the new user record. -/
inductive LocOutcome where
  | throttled
  | userNotFound
  | invalidLocation
  | updated (user : User)
deriving Repr, DecidableEq

/-- Result of one `location-update` dispatch; `lastLocationUpdate` is the
per-connection closure variable of the same name. -/
structure LocResult where
  outcome : LocOutcome
  lastLocationUpdate : Nat
  state : ServerState
deriving Repr, DecidableEq

/-- The coordinate validation of the `location-update` handler. -/
def validCoords (loc : Loc) : Bool :=
  !(loc.latitude < -90 || loc.latitude > 90 || loc.longitude < -180 || loc.longitude > 180)

/-- The `updatedUser` record built by a successful `location-update`
carrying a location payload. -/
def locUpdatedUser (user : User) (data : LocData) (loc : Loc) (now : Nat) : User :=
  { user with
    location := some loc
    accuracy := data.accuracy
    speed := data.speed
    heading := data.heading
    lastSeen := now
    status := "online"
    trail := pushTrail user.trail
      { latitude := loc.latitude, longitude := loc.longitude, timestamp := now } }

/-- The `location-update` handler (`src/sockets/index.ts`, lines 377-458).
Note that `lastLocationUpdate = now` runs right after the throttle check,
before the user lookup and the coordinate validation. -/
def locationUpdate (cid : String) (lastLocationUpdate : Nat) (data : LocData) (now : Nat)
    (s : ServerState) : LocResult :=
  if now - lastLocationUpdate < 1000 then
    { outcome := .throttled, lastLocationUpdate := lastLocationUpdate, state := s }
  else
    match mapGet s.connectedUsers cid with
    | none => { outcome := .userNotFound, lastLocationUpdate := now, state := s }
    | some user =>
      match data.location with
      | some loc =>
        if validCoords loc = false then
          { outcome := .invalidLocation, lastLocationUpdate := now, state := s }
        else
          { outcome := .updated (locUpdatedUser user data loc now), lastLocationUpdate := now,
            state := { s with
              connectedUsers := mapSet s.connectedUsers cid (locUpdatedUser user data loc now) } }
      | none =>
        let updatedUser : User := { user with
          location := none, accuracy := data.accuracy, speed := data.speed,
          heading := data.heading, lastSeen := now, status := "online" }
        { outcome := .updated updatedUser, lastLocationUpdate := now,
          state := { s with connectedUsers := mapSet s.connectedUsers cid updatedUser } }

/-- A `user-typing` broadcast (`userId`, `isTyping`, timestamp). -/
structure TypingEvt where
  userId : String
  isTyping : Bool
  time : Nat
deriving Repr, DecidableEq

/-- The `typing-start` handler (`src/sockets/index.ts`, lines 461-504).
Clearing the previous `setTimeout` and arming a new 3000 ms one is the
overwrite of this connection's single `typingUsers` slot; the stored value
is the pending deadline.  Returns the new state and the `user-typing`
broadcasts emitted. -/
def typingStart (cid : String) (now : Nat) (s : ServerState) : ServerState × List TypingEvt :=
  match mapGet s.connectedUsers cid with
  | none => (s, [])
  | some user =>
    ({ s with connectedUsers := mapSet s.connectedUsers cid { user with isTyping := true },
              typingUsers := mapSet s.typingUsers cid (now + 3000) },
     [{ userId := cid, isTyping := true, time := now }])

/-- The 3000 ms `setTimeout` callback armed by `typing-start`.  A timer
that was cancelled (its `typingUsers` slot cleared or overwritten) never
runs, so the callback only fires while its slot is present; it flips the
flag, broadcasts `isTyping: false`, and deletes its slot. -/
def fireTypingTimeout (cid : String) (now : Nat) (s : ServerState) :
    ServerState × List TypingEvt :=
  match mapGet s.typingUsers cid with
  | none => (s, [])
  | some _ =>
    match mapGet s.connectedUsers cid with
    | some currentUser =>
      if currentUser.isTyping then
        ({ s with
            connectedUsers := mapSet s.connectedUsers cid { currentUser with isTyping := false },
            typingUsers := mapDelete s.typingUsers cid },
         [{ userId := cid, isTyping := false, time := now }])
      else ({ s with typingUsers := mapDelete s.typingUsers cid }, [])
    | none => ({ s with typingUsers := mapDelete s.typingUsers cid }, [])

/-- Payload of the `send-message` event. -/
structure MsgData where
  message : Option String
  messageType : Option String
deriving Repr, DecidableEq

/-- What the `send-message` handler emits: the three `error` rejections or
the broadcast `new-message`. -/
inductive MsgOutcome where
  | rateLimited
  | userNotFound
  | invalidMessage
  | sent (m : ChatMessage)
deriving Repr, DecidableEq

/-- Result of one `send-message` dispatch; `lastMessageTime` is the
per-connection closure variable of the same name. -/
structure MsgResult where
  outcome : MsgOutcome
  lastMessageTime : Nat
  state : ServerState
deriving Repr, DecidableEq

/-- The `send-message` handler (`src/sockets/index.ts`, lines 534-611).
`newId` stands for the `generateUserId()` random id.  As in the source,
`lastMessageTime = now` runs right after the rate-limit check, before the
user lookup and the message validation. -/
def sendMessage (cid : String) (lastMessageTime : Nat) (data : MsgData) (now : Nat)
    (newId : String) (s : ServerState) : MsgResult :=
  if now - lastMessageTime < 500 then
    { outcome := .rateLimited, lastMessageTime := lastMessageTime, state := s }
  else
    match mapGet s.connectedUsers cid with
    | none => { outcome := .userNotFound, lastMessageTime := now, state := s }
    | some user =>
      let bad := match data.message with
        | none => true
        | some m => m == "" || jsLength (jsTrim m) == 0 || 1000 < jsLength m
      if bad then { outcome := .invalidMessage, lastMessageTime := now, state := s }
      else
        let users1 := mapSet s.connectedUsers cid { user with isTyping := false }
        let typing1 := mapDelete s.typingUsers cid
        let msg : ChatMessage := {
          id := newId
          userId := cid
          userName := user.name
          userRole := user.role
          message := jsTrim (data.message.getD "")
          timestamp := now
          location := user.location
          messageType := mtOf data.messageType
          edited := false
          reactions := [] }
        let sessionUsers := (mapGet s.trackingSessions user.sessionId).getD []
        let buffers1 := sessionUsers.foldl (fun buf uid =>
          if (mapGet users1 uid).isSome then buf
          else mapSet buf uid (((mapGet buf uid).getD []) ++ [msg])) s.messageBuffer
        { outcome := .sent msg, lastMessageTime := now,
          state := { s with connectedUsers := users1, typingUsers := typing1,
                            messageBuffer := buffers1 } }

/-- The `disconnect` handler (`src/sockets/index.ts`, lines 740-792),
up to and including the synchronous part: the 5-minute deferred deletion
of the user record and its message buffer is the separate `graceExpire`
below, mirroring the `setTimeout(..., 5 * 60 * 1000)`. -/
def disconnectHandler (cid : String) (s : ServerState) : ServerState :=
  match mapGet s.connectedUsers cid with
  | some user =>
    let typing1 := mapDelete s.typingUsers cid
    let sessions1 := match mapGet s.trackingSessions user.sessionId with
      | none => s.trackingSessions
      | some mem =>
        let mem1 := mem.erase cid
        if mem1.length = 0 then mapDelete s.trackingSessions user.sessionId
        else mapSet s.trackingSessions user.sessionId mem1
    { s with typingUsers := typing1, trackingSessions := sessions1,
             connectionHealth := mapDelete s.connectionHealth cid }
  | none => { s with connectionHealth := mapDelete s.connectionHealth cid }

/-- The deferred deletion scheduled by `disconnect` (fires 5 minutes
later). -/
def graceExpire (cid : String) (s : ServerState) : ServerState :=
  { s with connectedUsers := mapDelete s.connectedUsers cid,
           messageBuffer := mapDelete s.messageBuffer cid }

/-- `performCleanup` (`src/sockets/index.ts`, lines 233-270): sweep stale
connections (last pong more than 10 minutes ago) out of the health,
user and typing maps — but not out of `trackingSessions` — then drop empty
sessions, then trim any message buffer above 100 entries to its last 50. -/
def performCleanup (now : Nat) (s : ServerState) : ServerState :=
  let staleIds := (s.connectionHealth.filter
    (fun p => decide (600000 < now - p.2.lastPing))).map (fun p => p.1)
  let health1 := s.connectionHealth.filter (fun p => !(decide (600000 < now - p.2.lastPing)))
  let users1 := s.connectedUsers.filter (fun p => !(staleIds.contains p.1))
  let typing1 := s.typingUsers.filter (fun p => !(staleIds.contains p.1))
  let sessions1 := s.trackingSessions.filter (fun p => p.2.length != 0)
  let buffers1 := s.messageBuffer.map
    (fun p => if 100 < p.2.length then (p.1, sliceLast 50 p.2) else p)
  { connectedUsers := users1, trackingSessions := sessions1, typingUsers := typing1,
    connectionHealth := health1, messageBuffer := buffers1 }

/-- The health record created by `monitorConnection` on connection. -/
def initHealth (now : Nat) : ConnectionHealth :=
  { connectedAt := now, lastPing := now, pingCount := 0, reconnectCount := 0,
    isHealthy := true, latency := none }

/-- The `connection` side effect that registers a health record
(`monitorConnection`, lines 99-109). -/
def onConnect (cid : String) (now : Nat) (s : ServerState) : ServerState :=
  { s with connectionHealth := mapSet s.connectionHealth cid (initHealth now) }

/-- Per-connection state of `monitorConnection` (lines 99-163):
the health record, the mutable closure variable `pingIntervalTime`, and
`intervalDelay` — the delay that `setInterval(cb, pingIntervalTime)`
captured when it was created.  JS evaluates the delay argument exactly
once, so later assignments to `pingIntervalTime` never reach the
scheduler. -/
structure MonitorState where
  health : ConnectionHealth
  pingIntervalTime : Nat
  intervalDelay : Nat
deriving Repr, DecidableEq

/-- `monitorConnection` startup: `pingIntervalTime` starts at 30000 ms and
the interval is created with that value. -/
def initMonitor (now : Nat) : MonitorState :=
  { health := initHealth now, pingIntervalTime := 30000, intervalDelay := 30000 }

/-- The `pong` listener (lines 136-154): record latency, mark healthy, and
adapt `pingIntervalTime` (+5000 capped at 60000 below 100 ms latency,
−2000 floored at 15000 above 1000 ms latency). -/
def onPong (m : MonitorState) (startTime now : Nat) : MonitorState :=
  let latency := now - startTime
  let h := { m.health with
    lastPing := now
    pingCount := m.health.pingCount + 1
    isHealthy := true
    latency := some latency }
  let p := if latency < 100 then min 60000 (m.pingIntervalTime + 5000)
    else if 1000 < latency then max 15000 (m.pingIntervalTime - 2000)
    else m.pingIntervalTime
  { m with health := h, pingIntervalTime := p }

/-- The 15000 ms pong-timeout callback (lines 123-134): mark unhealthy,
bump `reconnectCount`, tighten `pingIntervalTime` by 5000 floored at
15000. -/
def onPongTimeout (m : MonitorState) : MonitorState :=
  { m with
    health := { m.health with
      isHealthy := false
      reconnectCount := m.health.reconnectCount + 1 }
    pingIntervalTime := max 15000 (m.pingIntervalTime - 5000) }

/-- The delay before the next ping: `setInterval` keeps firing with the
delay it captured at creation, regardless of `pingIntervalTime`. -/
def nextPingDelay (m : MonitorState) : Nat := m.intervalDelay

/-- Run a list of timestamped `location-update` events, threading the
`lastLocationUpdate` closure variable. -/
def runLocationUpdates (cid : String) (last : Nat) (s : ServerState) :
    List (Nat × LocData) → Nat × ServerState
  | [] => (last, s)
  | (t, d) :: rest =>
    let r := locationUpdate cid last d t s
    runLocationUpdates cid r.lastLocationUpdate r.state rest

/-- A sequence of location updates that are all accepted: each arrives at
least 1000 ms after the previous throttle-passing one (`last` seeds the
window), and each carries in-range coordinates. -/
def AcceptedSeq (last : Nat) : List (Nat × LocData) → Prop
  | [] => True
  | (t, d) :: rest =>
    last + 1000 ≤ t ∧ (∃ loc, d.location = some loc ∧ validCoords loc = true) ∧
      AcceptedSeq t rest

/-- The trail points a list of location updates contributes, in arrival
order. -/
def trailSamples (updates : List (Nat × LocData)) : List TrailPoint :=
  updates.filterMap (fun u => u.2.location.map
    (fun loc => { latitude := loc.latitude, longitude := loc.longitude, timestamp := u.1 }))

/-- Run a list of timestamped `typing-start` events. -/
def runTypingStarts (cid : String) (s : ServerState) : List Nat → ServerState
  | [] => s
  | t :: rest => runTypingStarts cid (typingStart cid t s).1 rest

/-- The last element of `t :: ts`. -/
def lastOf (t : Nat) : List Nat → Nat
  | [] => t
  | t2 :: rest => lastOf t2 rest

/-- The spec invariant of C9: every session's member set is exactly the
set of connection ids whose registered `User` record carries that session
id. -/
def SessionsExact (s : ServerState) : Prop :=
  ∀ sid cid, (∃ mem, mapGet s.trackingSessions sid = some mem ∧ cid ∈ mem) ↔
    (∃ u, mapGet s.connectedUsers cid = some u ∧ u.sessionId = sid)

/-- Join payload with only name/role/session set, as the tests and
concrete scenarios below use it. -/
def jdW (n r sid : String) : JoinData :=
  { name := some n, role := r, sessionId := some sid, location := none,
    speed := none, accuracy := none, heading := none }

/-- Base scenario: connection `a` has joined session `j` as `" al "`
(stored trimmed as `al`) at time 0. -/
def sBase : ServerState := (joinTracking "a" (jdW " al " "worker" "j") 0 emptyState).state

/-- The participant record that the base scenario registers for `a`. -/
def userAl : User :=
  { id := "a", name := "al", role := "worker", sessionId := "j", joinedAt := 0,
    lastSeen := 0, status := "online", location := none, accuracy := none,
    speed := none, heading := none, trail := [], isTyping := false,
    connectionHealth := none }

/-- The message payload used by the C8 overflow run. -/
def c8data : MsgData := { message := some "hi", messageType := none }

/-- One `send-message` dispatch of the C8 overflow run, spaced exactly
500 ms apart so that every call passes the rate limiter. -/
def c8Step (acc : Nat × ServerState) (i : Nat) : Nat × ServerState :=
  let r := sendMessage "alice" acc.1 c8data (700000 + 500 * (i + 1)) "m" acc.2
  (r.lastMessageTime, r.state)

/-- A reachable state with an oversized reconnection buffer: `ghost`
joins session `job`, goes stale and is swept out of the registry by
`performCleanup` (which leaves it in the session member set), then
`alice` joins the same session and sends 101 messages; each is buffered
for the absent `ghost`, and nothing trims the buffer between cleanup
runs. -/
def c8State : ServerState :=
  let s1 := onConnect "ghost" 0 emptyState
  let s2 := (joinTracking "ghost" (jdW "ghost" "worker" "job") 0 s1).state
  let s3 := performCleanup 700000 s2
  let s4 := onConnect "alice" 700000 s3
  let s5 := (joinTracking "alice" (jdW "alice" "worker" "job") 700000 s4).state
  ((List.range 101).foldl c8Step (0, s5)).2

/-- A fixed chat message used to populate concrete buffers. -/
def dummyMsg : ChatMessage :=
  { id := "m", userId := "alice", userName := "alice", userRole := "worker",
    message := "hi", timestamp := 0, location := none, messageType := "text",
    edited := false, reactions := [] }

/-- A 101-message buffer queue. -/
def c8wQ : List ChatMessage := List.replicate 101 dummyMsg

/-- A state whose buffer for `x` holds 101 messages. -/
def c8wState : ServerState := { emptyState with messageBuffer := [("x", c8wQ)] }

/-- A 100-message buffer queue (at the cap, not above it). -/
def c8wQ2 : List ChatMessage := List.replicate 100 dummyMsg

/-- A state whose buffer for `y` holds exactly 100 messages. -/
def c8wState2 : ServerState := { emptyState with messageBuffer := [("y", c8wQ2)] }

/-- A location update payload carrying only a latitude (used by concrete
runs below). -/
def c3upd (t : Nat) (lat : Int) : Nat × LocData :=
  (t, { location := some { latitude := lat, longitude := 0 }, accuracy := none,
        speed := none, heading := none })

/-- A message body of raw length 1001 (above the 1000 limit) whose
trimmed length is only 500. -/
def bigStr : String := String.mk (List.replicate 500 'a' ++ List.replicate 501 ' ')

/-- C4 run, step 1: first-ever location update of `a`, carrying an
out-of-range latitude of 100 — rejected as `INVALID_LOCATION`, yet it
still sets `lastLocationUpdate`. -/
def c4r1 : LocResult := locationUpdate "a" 0 (c3upd 10000 100).2 10000 sBase

/-- C4 run, step 2: a valid update 500 ms later. -/
def c4r2 : LocResult :=
  locationUpdate "a" c4r1.lastLocationUpdate (c3upd 10500 10).2 10500 c4r1.state

/-- C5 run, step 1: first-ever send-message of `a` with a
whitespace-only body — rejected as `INVALID_MESSAGE`, yet it still sets
`lastMessageTime`. -/
def c5m1 : MsgResult :=
  sendMessage "a" 0 { message := some "  ", messageType := none } 10000 "id1" sBase

/-- C5 run, step 2: a valid message 300 ms later. -/
def c5m2 : MsgResult :=
  sendMessage "a" c5m1.lastMessageTime { message := some "hi", messageType := none } 10300
    "id2" c5m1.state

/-- A valid message payload with surrounding whitespace. -/
def c10ok : MsgData := { message := some " hi there ", messageType := none }

/-- The oversized message payload. -/
def c10big : MsgData := { message := some bigStr, messageType := none }

/-! ### Helper lemmas about the map/set/slice primitives -/

theorem mapGet_mapSet_self {α : Type} (m : List (String × α)) (k : String) (v : α) :
    mapGet (mapSet m k v) k = some v := by
  induction m with
  | nil => simp [mapGet, mapSet]
  | cons p rest ih =>
    obtain ⟨k2, v2⟩ := p
    by_cases h : k2 = k
    · simp [mapSet, h, mapGet]
    · simp [mapSet, h, mapGet, ih]

theorem mapGet_mapSet_ne {α : Type} (m : List (String × α)) (k k2 : String) (v : α)
    (h : k ≠ k2) : mapGet (mapSet m k v) k2 = mapGet m k2 := by
  induction m with
  | nil => simp [mapGet, mapSet, h]
  | cons p rest ih =>
    obtain ⟨k3, v3⟩ := p
    by_cases h3 : k3 = k
    · subst h3
      simp [mapSet, mapGet, h]
    · simp [mapSet, h3, mapGet, ih]

theorem mapGet_mapSet {α : Type} (m : List (String × α)) (k k2 : String) (v : α) :
    mapGet (mapSet m k v) k2 = if k = k2 then some v else mapGet m k2 := by
  by_cases h : k = k2
  · subst h; simp [mapGet_mapSet_self]
  · simp [h, mapGet_mapSet_ne m k k2 v h]

theorem mapGet_mapDelete_self {α : Type} (m : List (String × α)) (k : String) :
    mapGet (mapDelete m k) k = none := by
  induction m with
  | nil => simp [mapGet, mapDelete]
  | cons p rest ih =>
    obtain ⟨k2, v2⟩ := p
    by_cases h : k2 = k
    · simpa [mapDelete, h] using ih
    · simpa [mapDelete, mapGet, h] using ih

theorem mapGet_filter_some {α : Type} (m : List (String × α)) (q : String × α → Bool)
    (k : String) (v : α) (h : mapGet m k = some v) (hq : q (k, v) = true) :
    mapGet (m.filter q) k = some v := by
  induction m with
  | nil => simp [mapGet] at h
  | cons p rest ih =>
    obtain ⟨k2, v2⟩ := p
    by_cases hk : k2 = k
    · subst hk
      rw [mapGet, if_pos rfl] at h
      obtain rfl : v2 = v := by injection h
      simp [List.filter_cons, hq, mapGet]
    · rw [mapGet, if_neg hk] at h
      rw [List.filter_cons]
      by_cases hq2 : q (k2, v2) = true
      · simp [hq2, mapGet, hk, ih h]
      · simp [hq2, ih h]

theorem setAdd_mem (l : List String) (x a : String) : a ∈ setAdd l x ↔ a ∈ l ∨ a = x := by
  unfold setAdd
  by_cases h : l.contains x = true
  · have hx : x ∈ l := by simpa [List.contains] using h
    rw [if_pos h]
    constructor
    · exact Or.inl
    · rintro (ha | rfl)
      · exact ha
      · exact hx
  · rw [if_neg h]
    simp [List.mem_append]

theorem sliceLast_length {α : Type} (n : Nat) (l : List α) :
    (sliceLast n l).length = min n l.length := by
  simp only [sliceLast, List.length_drop]
  omega

theorem sliceLast_of_le {α : Type} (n : Nat) (l : List α) (h : l.length ≤ n) :
    sliceLast n l = l := by
  have h0 : l.length - n = 0 := by omega
  simp [sliceLast, h0]

theorem sliceLast_sliceLast_append {α : Type} (n : Nat) (l m2 : List α) :
    sliceLast n (sliceLast n l ++ m2) = sliceLast n (l ++ m2) := by
  by_cases h : l.length ≤ n
  · rw [sliceLast_of_le n l h]
  · have hk : l.length - n ≤ l.length := by omega
    unfold sliceLast
    rw [← List.drop_append_of_le_length hk, List.drop_drop]
    congr 1
    simp only [List.length_drop, List.length_append]
    omega

theorem pushTrail_eq (trail : List TrailPoint) (pt : TrailPoint) :
    pushTrail trail pt = sliceLast 30 (trail ++ [pt]) := by
  unfold pushTrail
  by_cases h2 : 30 < (trail ++ [pt]).length
  · rw [if_pos h2]
  · rw [if_neg h2, sliceLast_of_le]
    omega

theorem pushTrail_length (trail : List TrailPoint) (pt : TrailPoint) :
    (pushTrail trail pt).length ≤ 30 := by
  rw [pushTrail_eq trail pt, sliceLast_length]
  omega

/-! ### Symbolic evaluation of the handlers on their main paths -/

theorem locationUpdate_accepted (cid : String) (last : Nat) (data : LocData) (t : Nat)
    (s : ServerState) (u : User) (loc : Loc)
    (hthr : last + 1000 ≤ t) (hu : mapGet s.connectedUsers cid = some u)
    (hloc : data.location = some loc) (hvalid : validCoords loc = true) :
    locationUpdate cid last data t s =
      { outcome := .updated (locUpdatedUser u data loc t), lastLocationUpdate := t,
        state := { s with
          connectedUsers := mapSet s.connectedUsers cid (locUpdatedUser u data loc t) } } := by
  have h1 : ¬ (t - last < 1000) := by omega
  simp [locationUpdate, h1, hu, hloc, hvalid]

theorem runLoc_trail_general (cid : String) :
    ∀ (updates : List (Nat × LocData)) (last : Nat) (s : ServerState) (u : User),
      mapGet s.connectedUsers cid = some u → u.trail.length ≤ 30 →
      AcceptedSeq last updates →
      (mapGet ((runLocationUpdates cid last s updates).2).connectedUsers cid).map User.trail =
        some (sliceLast 30 (u.trail ++ trailSamples updates)) := by
  intro updates
  induction updates with
  | nil =>
    intro last s u hu hlen _
    simp only [runLocationUpdates, trailSamples, List.filterMap_nil, List.append_nil]
    rw [hu, sliceLast_of_le 30 u.trail hlen]
    rfl
  | cons p rest ih =>
    obtain ⟨t, d⟩ := p
    intro last s u hu hlen hacc
    obtain ⟨hgap, ⟨loc, hloc, hvalid⟩, hrest⟩ := hacc
    have hstep := locationUpdate_accepted cid last d t s u loc hgap hu hloc hvalid
    simp only [runLocationUpdates, hstep]
    have hu1 : mapGet (mapSet s.connectedUsers cid (locUpdatedUser u d loc t)) cid =
        some (locUpdatedUser u d loc t) := mapGet_mapSet_self s.connectedUsers cid _
    have hlen1 : (locUpdatedUser u d loc t).trail.length ≤ 30 :=
      pushTrail_length u.trail _
    rw [ih t _ (locUpdatedUser u d loc t) hu1 hlen1 hrest]
    congr 1
    have htr : (locUpdatedUser u d loc t).trail =
        pushTrail u.trail { latitude := loc.latitude, longitude := loc.longitude, timestamp := t } := rfl
    rw [htr, pushTrail_eq, sliceLast_sliceLast_append]
    have hsm : trailSamples ((t, d) :: rest) =
        { latitude := loc.latitude, longitude := loc.longitude, timestamp := t } :: trailSamples rest := by
      simp [trailSamples, hloc]
    rw [hsm, List.append_assoc, List.singleton_append]

/-- C3: for every registered participant whose trail starts empty (as
`join-tracking` creates it) and every sequence of accepted location
updates, the resulting trail is exactly the last (at most) 30 samples of
the update sequence in chronological order — so it never exceeds 30
entries, the newest sample is last, and after 31 accepted updates it holds
exactly the last 30 samples, the oldest having been evicted first. -/
theorem C3_trail_bounded (cid : String) (updates : List (Nat × LocData)) (last : Nat)
    (s : ServerState) (u : User)
    (hu : mapGet s.connectedUsers cid = some u) (h0 : u.trail = [])
    (hacc : AcceptedSeq last updates) :
    (mapGet ((runLocationUpdates cid last s updates).2).connectedUsers cid).map User.trail =
      some (sliceLast 30 (trailSamples updates)) ∧
    (sliceLast 30 (trailSamples updates)).length ≤ 30 := by
  constructor
  · have hg := runLoc_trail_general cid updates last s u hu (by rw [h0]; simp) hacc
    rwa [h0, List.nil_append] at hg
  · rw [sliceLast_length]
    omega

/-- C3 witness: two concrete accepted updates on the base scenario. -/
theorem C3_trail_bounded_witness :
    (mapGet ((runLocationUpdates "a" 0 sBase [c3upd 1000 1, c3upd 2000 2]).2).connectedUsers
        "a").map User.trail =
      some (sliceLast 30 (trailSamples [c3upd 1000 1, c3upd 2000 2])) ∧
    (sliceLast 30 (trailSamples [c3upd 1000 1, c3upd 2000 2])).length ≤ 30 :=
  C3_trail_bounded "a" [c3upd 1000 1, c3upd 2000 2] 0 sBase userAl (by decide) rfl
    ⟨by omega, ⟨{ latitude := 1, longitude := 0 }, rfl, by decide⟩,
     by omega, ⟨{ latitude := 2, longitude := 0 }, rfl, by decide⟩, trivial⟩

/-- C4 (amended): a location update arriving less than 1000 ms after this
connection's last throttle-passing location-update attempt is silently
dropped — the handler returns with no state change, no broadcast and no
error, and leaves the throttle clock untouched; conversely any attempt
outside the window stamps `lastLocationUpdate := now` whether or not it is
subsequently accepted, so the window is measured from the last
throttle-passing attempt, not from the last accepted update. -/
theorem C4_throttle_window (cid : String) (last : Nat) (data : LocData) (now : Nat)
    (s : ServerState) :
    (now < last + 1000 → locationUpdate cid last data now s =
      { outcome := .throttled, lastLocationUpdate := last, state := s }) ∧
    (last + 1000 ≤ now → (locationUpdate cid last data now s).lastLocationUpdate = now) := by
  constructor
  · intro h
    unfold locationUpdate
    rw [if_pos (by omega)]
  · intro h
    unfold locationUpdate
    rw [if_neg (show ¬ (now - last < 1000) by omega)]
    split
    · rfl
    · split
      · split
        · rfl
        · rfl
      · rfl

/-- C4 witness: a throttled drop at 500 ms and a window stamp at 5000 ms. -/
theorem C4_throttle_window_witness :
    locationUpdate "a" 10000 (c3upd 10500 10).2 10500 sBase =
      { outcome := .throttled, lastLocationUpdate := 10000, state := sBase } ∧
    (locationUpdate "a" 0 (c3upd 5000 10).2 5000 sBase).lastLocationUpdate = 5000 :=
  ⟨(C4_throttle_window "a" 10000 (c3upd 10500 10).2 10500 sBase).1 (by omega),
   (C4_throttle_window "a" 0 (c3upd 5000 10).2 5000 sBase).2 (by omega)⟩

/-- C4 counterexample: the registered connection `a` has never had a
location update accepted — its only previous attempt was rejected with
`INVALID_LOCATION` — yet a valid update 500 ms later is silently
throttled.  Under the claim's reading (window measured from the last
accepted update) this second update would have to be accepted. -/
theorem C4_counterexample :
    c4r1.outcome = .invalidLocation ∧
    c4r2.outcome = .throttled ∧
    c4r2.state = c4r1.state ∧
    c4r2.lastLocationUpdate = c4r1.lastLocationUpdate := by decide

/-- C5 (amended): a send-message call arriving fewer than 500 ms after
this connection's last rate-check-passing send-message attempt is
rejected with the `RATE_LIMIT` error: the handler returns with the state
unchanged (nothing broadcast, nothing buffered, no registry change) and
the rate clock untouched; conversely any attempt outside the window
stamps `lastMessageTime := now` whether or not the message is
subsequently accepted, so the window is measured from the last
rate-check-passing attempt, not from the last accepted message. -/
theorem C5_rate_window (cid : String) (last : Nat) (data : MsgData) (now : Nat)
    (newId : String) (s : ServerState) :
    (now < last + 500 → sendMessage cid last data now newId s =
      { outcome := .rateLimited, lastMessageTime := last, state := s }) ∧
    (last + 500 ≤ now → (sendMessage cid last data now newId s).lastMessageTime = now) := by
  constructor
  · intro h
    unfold sendMessage
    rw [if_pos (by omega)]
  · intro h
    unfold sendMessage
    rw [if_neg (show ¬ (now - last < 500) by omega)]
    split
    · rfl
    · split
      · rfl
      · simp only []
        split
        · rfl
        · rfl

/-- C5 witness: a rate-limited rejection at 300 ms and a clock stamp at
600 ms. -/
theorem C5_rate_window_witness :
    sendMessage "a" 10000 c10ok 10300 "idw" sBase =
      { outcome := .rateLimited, lastMessageTime := 10000, state := sBase } ∧
    (sendMessage "a" 0 c10ok 600 "idw" sBase).lastMessageTime = 600 :=
  ⟨(C5_rate_window "a" 10000 c10ok 10300 "idw" sBase).1 (by omega),
   (C5_rate_window "a" 0 c10ok 600 "idw" sBase).2 (by omega)⟩

/-- C5 counterexample: the registered connection `a` has never had a
message accepted — its only previous attempt was rejected as
`INVALID_MESSAGE` — yet a valid message 300 ms later is rejected with
`RATE_LIMIT`.  Under the claim's reading (window measured from the last
accepted message) this second call would have to be accepted. -/
theorem C5_counterexample :
    c5m1.outcome = .invalidMessage ∧
    c5m2.outcome = .rateLimited ∧
    c5m2.state = c5m1.state ∧
    c5m2.lastMessageTime = c5m1.lastMessageTime := by decide

/-- C10: for an accepted send-message call the broadcast and buffered
`ChatMessage` carries the input text with surrounding whitespace trimmed,
`edited := false` and an empty reaction map, while the 1000-character
limit is checked against the raw untrimmed input: any payload whose raw
length exceeds 1000 is rejected with `INVALID_MESSAGE`, even when its
trimmed length is at most 1000. -/
theorem C10_message_shape (cid : String) (last : Nat) (data : MsgData) (now : Nat)
    (newId : String) (s : ServerState) (u : User) (m : String)
    (hu : mapGet s.connectedUsers cid = some u) (hm : data.message = some m)
    (hrate : last + 500 ≤ now) :
    (jsLength (jsTrim m) ≠ 0 → jsLength m ≤ 1000 →
      (sendMessage cid last data now newId s).outcome = .sent
        { id := newId, userId := cid, userName := u.name, userRole := u.role,
          message := jsTrim m, timestamp := now, location := u.location,
          messageType := mtOf data.messageType, edited := false, reactions := [] }) ∧
    (1000 < jsLength m → (sendMessage cid last data now newId s).outcome = .invalidMessage) := by
  have h1 : ¬ (now - last < 500) := by omega
  constructor
  · intro htrim hlen
    have hm0 : (m == "") = false := by
      by_cases he : m = ""
      · subst he
        exact absurd rfl htrim
      · simp [he]
    have h3 : (jsLength (jsTrim m) == 0) = false := by simp [htrim]
    have h4 : decide (1000 < jsLength m) = false := by
      simp only [decide_eq_false_iff_not]
      omega
    simp [sendMessage, h1, hu, hm, hm0, h3, h4]
  · intro hlen
    have h4 : decide (1000 < jsLength m) = true := decide_eq_true hlen
    simp [sendMessage, h1, hu, hm, h4]

/-- C10 witness: `" hi there "` is stored and broadcast trimmed with
`edited := false` and no reactions, while the 1001-character payload
(whose trimmed length is only 500) is rejected. -/
theorem C10_message_shape_witness :
    (sendMessage "a" 0 c10ok 600 "id3" sBase).outcome = .sent
      { id := "id3", userId := "a", userName := userAl.name, userRole := userAl.role,
        message := jsTrim " hi there ", timestamp := 600, location := userAl.location,
        messageType := mtOf c10ok.messageType, edited := false, reactions := [] } ∧
    (sendMessage "a" 0 c10big 600 "idb" sBase).outcome = .invalidMessage :=
  ⟨(C10_message_shape "a" 0 c10ok 600 "id3" sBase userAl " hi there " (by decide) rfl
      (by omega)).1 (by decide) (by decide),
   (C10_message_shape "a" 0 c10big 600 "idb" sBase userAl bigStr (by decide) rfl
      (by omega)).2
      (by rw [show jsLength bigStr =
            (List.replicate 500 'a' ++ List.replicate 501 ' ').length from rfl]
          simp)⟩

/-- C1 (amended): for every session state and every join request whose
name survives trimming and whose role passes the role validation, if the
trimmed name equals the stored (already trimmed) display name of a
participant registered in the same session, the join is rejected with the
duplicate-join error and the state — registry, session directory and
message buffers — is returned unchanged.  (When the role fails
validation, the role error takes precedence over the duplicate check; see
the counterexample.) -/
theorem C1_duplicate_join_rejected (cid : String) (data : JoinData) (now : Nat)
    (s : ServerState) (n : String)
    (hname : data.name = some n) (hn : jsLength (jsTrim n) ≠ 0)
    (hrole : (["admin", "supervisor", "worker", "new"].contains data.role) = true)
    (hdup : ((s.connectedUsers.map (fun p => p.2)).any
      (fun user => user.name == jsTrim n && user.sessionId == sidOf data.sessionId)) = true) :
    joinTracking cid data now s = { outcome := .duplicateJoin, state := s } := by
  have hne : (n != "") = true := by
    by_cases he : n = ""
    · subst he
      exact absurd rfl hn
    · simp [he]
  have h0 : (jsLength (jsTrim n) != 0) = true := by simp [hn]
  simp only [joinTracking, hname, Option.getD_some]
  rw [if_neg (by simp [hne, h0]), if_neg (by rw [hrole]; simp), if_pos hdup]

/-- C1 witness: joining again as `" al "` (same trimmed name, same
session `j`, valid role) is rejected as a duplicate without mutation. -/
theorem C1_duplicate_join_rejected_witness :
    joinTracking "b" (jdW " al " "admin" "j") 5 sBase =
      { outcome := .duplicateJoin, state := sBase } :=
  C1_duplicate_join_rejected "b" (jdW " al " "admin" "j") 5 sBase " al " rfl
    (by decide) (by decide) (by decide)

/-- C1 counterexample: the duplicate-name condition holds (a participant
named `al` is registered in session `j`), yet a join request carrying the
unknown role `boss` is rejected with the invalid-role error, not with
the duplicate-join error — the role check runs before the duplicate
check. -/
theorem C1_counterexample :
    ((sBase.connectedUsers.map (fun p => p.2)).any
      (fun user => user.name == jsTrim "al" && user.sessionId == sidOf (some "j"))) = true ∧
    (joinTracking "b" (jdW "al" "boss" "j") 5 sBase).outcome = .invalidRole ∧
    (joinTracking "b" (jdW "al" "boss" "j") 5 sBase).outcome ≠ .duplicateJoin := by decide

/-- C2: the role validation of `join-tracking` accepts the string `new`
in addition to the enumerated `admin`, `supervisor`, `worker` — the
handler registers a participant whose role is `new`, contradicting both
the claim and the source's own `User` interface type
(`role: "admin" | "supervisor" | "worker"`). -/
theorem C2_role_new_accepted :
    ((joinTracking "s1" (jdW "ann" "new" "j") 0 emptyState).state.connectedUsers.map
      (fun p => p.2.role)) = ["new"] ∧
    (joinTracking "s1" (jdW "ann" "new" "j") 0 emptyState).outcome ≠ .invalidRole ∧
    ("new" ∈ ["admin", "supervisor", "worker"] → False) := by decide

/-- C7: the adaptation arithmetic of `monitorConnection` matches the
claim — +5000 capped at 60000 when latency < 100 ms, −2000 floored at
15000 when latency > 1000 ms, unchanged otherwise, and −5000 floored at
15000 plus a reconnect-count increment and unhealthy mark on pong
timeout — but the ping schedule never uses the adapted value:
`setInterval` captured the initial 30000 ms delay once at creation, so
after a 50 ms-latency pong adapts `pingIntervalTime` to 35000 the next
ping still fires 30000 ms later. -/
theorem C7_schedule_ignores_adaptation :
    (onPong (initMonitor 0) 30000 30050).pingIntervalTime = 35000 ∧
    (onPong (initMonitor 0) 30000 31500).pingIntervalTime = 28000 ∧
    (onPong (initMonitor 0) 30000 30500).pingIntervalTime = 30000 ∧
    (onPong { health := initHealth 0, pingIntervalTime := 58000, intervalDelay := 30000 }
        0 50).pingIntervalTime = 60000 ∧
    (onPong { health := initHealth 0, pingIntervalTime := 16000, intervalDelay := 30000 }
        0 1500).pingIntervalTime = 15000 ∧
    (onPongTimeout (initMonitor 0)).pingIntervalTime = 25000 ∧
    (onPongTimeout { health := initHealth 0, pingIntervalTime := 17000, intervalDelay := 30000 }).pingIntervalTime = 15000 ∧
    (onPongTimeout (initMonitor 0)).health.reconnectCount = 1 ∧
    (onPongTimeout (initMonitor 0)).health.isHealthy = false ∧
    nextPingDelay (onPong (initMonitor 0) 30000 30050) = 30000 ∧
    nextPingDelay (onPong (initMonitor 0) 30000 30050) ≠
      (onPong (initMonitor 0) 30000 30050).pingIntervalTime ∧
    nextPingDelay (onPongTimeout (initMonitor 0)) = 30000 := by decide

theorem mapGet_trimBuf (m : List (String × List ChatMessage)) (k : String) :
    mapGet (m.map (fun p => if 100 < p.2.length then (p.1, sliceLast 50 p.2) else p)) k =
      (mapGet m k).map (fun q => if 100 < q.length then sliceLast 50 q else q) := by
  induction m with
  | nil => simp [mapGet]
  | cons p rest ih =>
    obtain ⟨k2, v⟩ := p
    have hhead : (if 100 < v.length then (k2, sliceLast 50 v) else ((k2 : String), v)) =
        (k2, if 100 < v.length then sliceLast 50 v else v) := by
      by_cases hv : 100 < v.length
      · rw [if_pos hv, if_pos hv]
      · rw [if_neg hv, if_neg hv]
    simp only [List.map_cons]
    rw [hhead]
    simp only [mapGet]
    by_cases hk : k2 = k
    · rw [if_pos hk, if_pos hk]
      rfl
    · rw [if_neg hk, if_neg hk, ih]

theorem performCleanup_messageBuffer (now : Nat) (s : ServerState) :
    (performCleanup now s).messageBuffer =
      s.messageBuffer.map (fun p => if 100 < p.2.length then (p.1, sliceLast 50 p.2) else p) :=
  rfl

/-- C8 (amended): reconnection buffers are trimmed only when the periodic
`performCleanup` runs: at that point an entry holding more than 100
messages is replaced by exactly its most recent 50, in order (the result
is a length-50 suffix of the old queue), and an entry holding at most 100
messages is left as it is.  Between cleanup runs nothing bounds an entry,
so it can observably exceed 100 messages (see the counterexample). -/
theorem C8_cleanup_trims (s : ServerState) (now : Nat) (uid : String) (q : List ChatMessage)
    (hq : mapGet s.messageBuffer uid = some q) :
    (100 < q.length →
      mapGet (performCleanup now s).messageBuffer uid = some (sliceLast 50 q) ∧
      (sliceLast 50 q).length = 50 ∧
      q.take (q.length - 50) ++ sliceLast 50 q = q) ∧
    (q.length ≤ 100 → mapGet (performCleanup now s).messageBuffer uid = some q) := by
  constructor
  · intro hlen
    refine ⟨?_, ?_, ?_⟩
    · rw [performCleanup_messageBuffer, mapGet_trimBuf, hq]
      simp [hlen]
    · rw [sliceLast_length]
      omega
    · rw [show sliceLast 50 q = q.drop (q.length - 50) from rfl]
      exact List.take_append_drop (q.length - 50) q
  · intro hlen
    rw [performCleanup_messageBuffer, mapGet_trimBuf, hq]
    simp [show ¬ (100 < q.length) from by omega]

/-- C8 witness: a 101-message entry is trimmed to its most recent 50 by
the cleanup, while a 100-message entry is left untouched. -/
theorem C8_cleanup_trims_witness :
    (mapGet (performCleanup 0 c8wState).messageBuffer "x" = some (sliceLast 50 c8wQ) ∧
      (sliceLast 50 c8wQ).length = 50 ∧
      c8wQ.take (c8wQ.length - 50) ++ sliceLast 50 c8wQ = c8wQ) ∧
    mapGet (performCleanup 0 c8wState2).messageBuffer "y" = some c8wQ2 :=
  ⟨(C8_cleanup_trims c8wState 0 "x" c8wQ rfl).1 (by simp [c8wQ]),
   (C8_cleanup_trims c8wState2 0 "y" c8wQ2 rfl).2 (by simp [c8wQ2])⟩

/-- C8 counterexample: in the reachable state `c8State` the absent
participant `ghost` is a member of session `job` without a registry
record, and its reconnection-buffer entry holds 101 messages — more than
the claimed hard cap of 100, and not trimmed to 50 — because
`send-message` appends without any bound and trimming only happens inside
the periodic cleanup.  The oversized entry is observable: a join or
reconnect-request by `ghost` would deliver all 101 messages. -/
theorem C8_counterexample :
    mapGet c8State.connectedUsers "ghost" = none ∧
    ((mapGet c8State.trackingSessions "job").getD []).contains "ghost" = true ∧
    ((mapGet c8State.messageBuffer "ghost").getD []).length = 101 := by decide

theorem runTypingStarts_inv (cid : String) :
    ∀ (ts : List Nat) (t : Nat) (s : ServerState) (u : User),
      mapGet s.connectedUsers cid = some u →
      ∃ u2, mapGet (runTypingStarts cid s (t :: ts)).connectedUsers cid = some u2 ∧
        u2.isTyping = true ∧
        mapGet (runTypingStarts cid s (t :: ts)).typingUsers cid = some (lastOf t ts + 3000) := by
  intro ts
  induction ts with
  | nil =>
    intro t s u hu
    refine ⟨{ u with isTyping := true }, ?_, rfl, ?_⟩
    · simp [runTypingStarts, typingStart, hu, mapGet_mapSet_self]
    · simp [runTypingStarts, typingStart, hu, lastOf, mapGet_mapSet_self]
  | cons t2 rest ih =>
    intro t s u hu
    have hu1 : mapGet ((typingStart cid t s).1).connectedUsers cid =
        some { u with isTyping := true } := by
      simp [typingStart, hu, mapGet_mapSet_self]
    have hrw : runTypingStarts cid s (t :: t2 :: rest) =
        runTypingStarts cid (typingStart cid t s).1 (t2 :: rest) := rfl
    have hlast : lastOf t (t2 :: rest) = lastOf t2 rest := rfl
    rw [hrw, hlast]
    exact ih t2 (typingStart cid t s).1 { u with isTyping := true } hu1

/-- C6: for a registered participant, any nonempty burst of typing-start
events leaves exactly one pending typing timer, armed by the last
typing-start (deadline = last start + 3000 ms) — each start overwrote the
previous pending timer — and once no further events arrive and that timer
fires, exactly one `isTyping: false` broadcast is produced; afterwards no
timer is pending for the connection, so no duplicate `isTyping: false`
broadcast can fire. -/
theorem C6_typing_debounce (cid : String) (s : ServerState) (u : User) (t : Nat)
    (ts : List Nat) (hu : mapGet s.connectedUsers cid = some u) (T : Nat)
    (hT : lastOf t ts + 3000 ≤ T) (T2 : Nat) :
    mapGet (runTypingStarts cid s (t :: ts)).typingUsers cid = some (lastOf t ts + 3000) ∧
    (fireTypingTimeout cid T (runTypingStarts cid s (t :: ts))).2 =
      [{ userId := cid, isTyping := false, time := T }] ∧
    mapGet ((fireTypingTimeout cid T (runTypingStarts cid s (t :: ts))).1).typingUsers cid =
      none ∧
    (fireTypingTimeout cid T2 (fireTypingTimeout cid T (runTypingStarts cid s (t :: ts))).1).2 =
      [] := by
  obtain ⟨u2, hu2, hty, htimer⟩ := runTypingStarts_inv cid ts t s u hu
  have h1 : mapGet ((fireTypingTimeout cid T
      (runTypingStarts cid s (t :: ts))).1).typingUsers cid = none := by
    simp [fireTypingTimeout, htimer, hu2, hty, mapGet_mapDelete_self]
  refine ⟨htimer, ?_, h1, ?_⟩
  · simp [fireTypingTimeout, htimer, hu2, hty]
  · generalize hst : (fireTypingTimeout cid T (runTypingStarts cid s (t :: ts))).1 = s2 at h1
    simp [fireTypingTimeout, h1]

/-- C6 witness: three rapid typing-starts on the base scenario coalesce
into one timer at 300 + 3000 ms; its firing broadcasts a single
`isTyping: false` and a repeat firing attempt produces nothing. -/
theorem C6_typing_debounce_witness :
    mapGet (runTypingStarts "a" sBase [100, 200, 300]).typingUsers "a" =
      some (lastOf 100 [200, 300] + 3000) ∧
    (fireTypingTimeout "a" 3300 (runTypingStarts "a" sBase [100, 200, 300])).2 =
      [{ userId := "a", isTyping := false, time := 3300 }] ∧
    mapGet ((fireTypingTimeout "a" 3300
      (runTypingStarts "a" sBase [100, 200, 300])).1).typingUsers "a" = none ∧
    (fireTypingTimeout "a" 9000 (fireTypingTimeout "a" 3300
      (runTypingStarts "a" sBase [100, 200, 300])).1).2 = [] :=
  C6_typing_debounce "a" sBase userAl 100 [200, 300] (by decide) 3300 (by decide) 9000

theorem SessionsExact_join_update (s : ServerState) (cid : String) (u : User)
    (buf : List (String × List ChatMessage)) (hse : SessionsExact s)
    (hnew : mapGet s.connectedUsers cid = none) :
    SessionsExact { s with
      connectedUsers := mapSet s.connectedUsers cid u
      trackingSessions := mapSet s.trackingSessions u.sessionId
        (setAdd ((mapGet s.trackingSessions u.sessionId).getD []) cid)
      messageBuffer := buf } := by
  have hnomem : ∀ sid mem, mapGet s.trackingSessions sid = some mem → cid ∉ mem := by
    intro sid mem hmem hin
    obtain ⟨u2, hu2, _⟩ := (hse sid cid).mp ⟨mem, hmem, hin⟩
    rw [hnew] at hu2
    exact Option.noConfusion hu2
  intro sid2 cid2
  show (∃ mem, mapGet (mapSet s.trackingSessions u.sessionId
      (setAdd ((mapGet s.trackingSessions u.sessionId).getD []) cid)) sid2 = some mem ∧
      cid2 ∈ mem) ↔
    ∃ u2, mapGet (mapSet s.connectedUsers cid u) cid2 = some u2 ∧ u2.sessionId = sid2
  by_cases hc : cid = cid2
  · subst hc
    constructor
    · rintro ⟨mem, hmem, hin⟩
      refine ⟨u, mapGet_mapSet_self s.connectedUsers cid u, ?_⟩
      rw [mapGet_mapSet] at hmem
      by_cases hs : u.sessionId = sid2
      · exact hs
      · rw [if_neg hs] at hmem
        exact absurd hin (hnomem sid2 mem hmem)
    · rintro ⟨u2, hu2, hsid⟩
      rw [mapGet_mapSet_self] at hu2
      obtain rfl : u = u2 := Option.some.inj hu2
      refine ⟨setAdd ((mapGet s.trackingSessions u.sessionId).getD []) cid, ?_, ?_⟩
      · rw [← hsid]
        exact mapGet_mapSet_self s.trackingSessions u.sessionId _
      · exact (setAdd_mem _ _ _).mpr (Or.inr rfl)
  · have hrhseq : mapGet (mapSet s.connectedUsers cid u) cid2 = mapGet s.connectedUsers cid2 :=
      mapGet_mapSet_ne s.connectedUsers cid cid2 u hc
    rw [hrhseq]
    by_cases hs : u.sessionId = sid2
    · subst hs
      rw [mapGet_mapSet_self]
      constructor
      · rintro ⟨mem, hmem, hin⟩
        obtain rfl : setAdd ((mapGet s.trackingSessions u.sessionId).getD []) cid = mem :=
          Option.some.inj hmem
        rcases (setAdd_mem _ _ _).mp hin with h | h
        · cases hbase : mapGet s.trackingSessions u.sessionId with
          | none =>
            rw [hbase] at h
            simp at h
          | some mem0 =>
            rw [hbase] at h
            exact (hse u.sessionId cid2).mp ⟨mem0, hbase, by simpa using h⟩
        · exact absurd h.symm hc
      · rintro ⟨u2, hu2, hsid⟩
        refine ⟨setAdd ((mapGet s.trackingSessions u.sessionId).getD []) cid, rfl, ?_⟩
        apply (setAdd_mem _ _ _).mpr
        left
        obtain ⟨mem0, hmem0, hin0⟩ := (hse u.sessionId cid2).mpr ⟨u2, hu2, hsid⟩
        rw [hmem0]
        simpa using hin0
    · rw [mapGet_mapSet_ne s.trackingSessions u.sessionId sid2 _ hs]
      exact hse sid2 cid2

theorem joinTracking_preserves_SessionsExact (cid : String) (data : JoinData) (now : Nat)
    (s : ServerState) (hse : SessionsExact s)
    (hnew : mapGet s.connectedUsers cid = none) :
    SessionsExact (joinTracking cid data now s).state := by
  simp only [joinTracking]
  split
  · exact hse
  · split
    · exact hse
    · split
      · exact hse
      · exact SessionsExact_join_update s cid _ _ hse hnew

/-- C9 (amended): the exact-membership invariant — every session's member
set is exactly the set of connection ids whose registered participant
record carries that session id — is preserved by a join of a connection
id not currently in the registry, but each of the other two operations
deliberately breaks one inclusion: a disconnect of a registered
participant removes the connection id from its session's member set while
retaining the participant record (for the 5-minute grace period), and a
stale sweep (`performCleanup`) deletes stale records from the registry
without touching nonempty member sets, which may therefore keep ids that
are no longer registered. -/
theorem C9_membership_invariant :
    (∀ (cid : String) (data : JoinData) (now : Nat) (s : ServerState),
      SessionsExact s → mapGet s.connectedUsers cid = none →
      SessionsExact (joinTracking cid data now s).state) ∧
    (∀ (s : ServerState) (cid : String) (u : User),
      mapGet s.connectedUsers cid = some u →
      (∀ mem, mapGet s.trackingSessions u.sessionId = some mem → mem.Nodup) →
      mapGet (disconnectHandler cid s).connectedUsers cid = some u ∧
      ∀ mem, mapGet (disconnectHandler cid s).trackingSessions u.sessionId = some mem →
        cid ∉ mem) ∧
    (∀ (s : ServerState) (now : Nat) (sid : String) (mem : List String),
      mapGet s.trackingSessions sid = some mem → mem ≠ [] →
      mapGet (performCleanup now s).trackingSessions sid = some mem) := by
  refine ⟨fun cid data now s hse hnew =>
    joinTracking_preserves_SessionsExact cid data now s hse hnew, ?_, ?_⟩
  · intro s cid u hu hnd
    constructor
    · simp [disconnectHandler, hu]
    · intro mem
      cases hms : mapGet s.trackingSessions u.sessionId with
      | none => simp [disconnectHandler, hu, hms]
      | some mem0 =>
        by_cases hlen : (mem0.erase cid).length = 0
        · simp [disconnectHandler, hu, hms, hlen, mapGet_mapDelete_self]
        · intro hmem hin
          rw [show (disconnectHandler cid s).trackingSessions =
              mapSet s.trackingSessions u.sessionId (mem0.erase cid) from by
            simp [disconnectHandler, hu, hms, hlen]] at hmem
          rw [mapGet_mapSet_self] at hmem
          obtain rfl : mem0.erase cid = mem := Option.some.inj hmem
          rw [List.Nodup.mem_erase_iff (hnd mem0 hms)] at hin
          exact hin.1 rfl
  · intro s now sid mem hmem hne
    have hrw : (performCleanup now s).trackingSessions =
        s.trackingSessions.filter (fun p => p.2.length != 0) := rfl
    rw [hrw]
    apply mapGet_filter_some _ _ _ _ hmem
    simp only [bne_iff_ne, ne_eq, List.length_eq_zero, decide_not]
    simp [hne]

/-- C9 witness: a fresh join into the empty state keeps the invariant;
disconnecting `a` keeps its record while removing it from `j`; a cleanup
leaves the nonempty member set of `j` untouched. -/
theorem C9_membership_invariant_witness :
    SessionsExact (joinTracking "a" (jdW " al " "worker" "j") 0 emptyState).state ∧
    (mapGet (disconnectHandler "a" sBase).connectedUsers "a" = some userAl ∧
      ∀ mem, mapGet (disconnectHandler "a" sBase).trackingSessions userAl.sessionId =
        some mem → "a" ∉ mem) ∧
    mapGet (performCleanup 0 sBase).trackingSessions "j" = some ["a"] :=
  ⟨C9_membership_invariant.1 "a" (jdW " al " "worker" "j") 0 emptyState
      (by intro sid cid; simp [emptyState, mapGet]) rfl,
   C9_membership_invariant.2.1 sBase "a" userAl (by decide)
      (by intro mem hmem
          rw [show mapGet sBase.trackingSessions userAl.sessionId = some ["a"] from by decide]
            at hmem
          obtain rfl : ["a"] = mem := Option.some.inj hmem
          decide),
   C9_membership_invariant.2.2 sBase 0 "j" ["a"] (by decide) (by decide)⟩

/-- C9 counterexample: immediately after the disconnect handler runs for
`a`, the registry still holds the participant record of `a` (the deferred
5-minute deletion has not fired) with session id `j`, but session `j` has
no member set at all — so the member set of `j` is not the set of
registered connection ids with that session id, refuting the claim that
the invariant holds after every leave/disconnect. -/
theorem C9_counterexample : ¬ SessionsExact (disconnectHandler "a" sBase) := by
  intro h
  obtain ⟨mem, hmem, _⟩ := (h "j" "a").mpr ⟨userAl, by decide, rfl⟩
  rw [show mapGet (disconnectHandler "a" sBase).trackingSessions "j" = none from by decide]
    at hmem
  exact Option.noConfusion hmem
